import Mathlib

/-!
Verification of the Ralph loop engine core (phase state machine, task-list
parsing, code-block extraction, file-change tracking, retry policy).

Each Python function of the repository that a claim touches is shallowly
embedded as an executable Lean definition operating on `String` / `List Char`
and explicit state records.  Strings are treated as their `List Char` data;
Python `str.lower` / `str.strip` are modelled for the ASCII range, which the
embedded keyword tables and claim inputs live in.
-/

namespace Ralph

/-- Python whitespace characters relevant to `str.strip()` (ASCII range:
space, tab, newline, carriage return, vertical tab, form feed). -/
def is_py_space (c : Char) : Bool :=
  c = ' ' || c = '\t' || c = '\n' || c = Char.ofNat 13 || c = Char.ofNat 11 || c = Char.ofNat 12

/-- Python `str.lstrip()` on char lists. -/
def py_lstrip (l : List Char) : List Char := l.dropWhile is_py_space

/-- Python `str.strip()` on char lists: drop whitespace from both ends. -/
def py_strip (l : List Char) : List Char :=
  ((l.dropWhile is_py_space).reverse.dropWhile is_py_space).reverse

/-- Python `str.strip()` on strings. -/
def py_strip_str (s : String) : String := ⟨py_strip s.data⟩

/-- Python `str.lower()` (ASCII case folding, which covers all embedded
keyword tables). -/
def py_lower (s : String) : String := ⟨s.data.map Char.toLower⟩

/-- `starts_with hay needle`: the list `hay` begins with `needle`
(Python `str.startswith`). -/
def starts_with : List Char → List Char → Bool
  | _, [] => true
  | [], _ :: _ => false
  | c :: cs, p :: ps => c == p && starts_with cs ps

/-- `contains_sub hay needle`: `needle` occurs contiguously inside `hay`
(Python `in` on strings). -/
def contains_sub : List Char → List Char → Bool
  | [], needle => needle.isEmpty
  | c :: cs, needle => starts_with (c :: cs) needle || contains_sub cs needle

/-- Ralph workflow phases (`class Phase(Enum)` in ralph_loop_engine.py). -/
inductive Phase where
  | study
  | implement
  | test
  | update
  | idle
  | complete
  | error
deriving DecidableEq

/-- The `.value` string of each `Phase` enum member. -/
def Phase.value : Phase → String
  | .study => "study"
  | .implement => "implement"
  | .test => "test"
  | .update => "update"
  | .idle => "idle"
  | .complete => "complete"
  | .error => "error"

/-- Execution mode (`class LoopMode(Enum)`). -/
inductive LoopMode where
  | non_stop
  | phase_by_phase
deriving DecidableEq

/-! ## Error recovery (src/lib/ralph_loop_engine/error_recovery.py and the
identical inline copy `RalphLoopEngine._is_critical_error`). -/

/-- The fixed `critical_patterns` keyword table. -/
def critical_patterns : List String :=
  ["permission denied", "disk full", "out of memory", "connection refused",
   "timeout", "authentication failed", "invalid api key"]

/-- `ErrorRecovery.is_critical_error` (same text as
`RalphLoopEngine._is_critical_error`): an error is critical when its
lower-cased text contains one of `critical_patterns`; otherwise UPDATE-phase
errors return `False`, and all remaining errors return `False` as well. -/
def is_critical_error (error : String) (phase : Phase) : Bool :=
  let error_lower := py_lower error
  if critical_patterns.any (fun p => contains_sub error_lower.data p.data) then
    true
  else if phase = Phase.update then
    false
  else
    false

/-- `ErrorRecovery.__init__` defaults: `max_retries=2`, `retry_delay=2.0`,
`continue_on_non_critical=True`. -/
structure ErrorRecovery where
  max_retries : Nat := 2
  retry_delay : ℚ := 2
  continue_on_non_critical : Bool := true

/-- `ErrorRecovery.should_retry`: no retry once `retry_count >= max_retries`,
never retry critical errors, retry all other errors. -/
def ErrorRecovery.should_retry (er : ErrorRecovery) (error : String)
    (phase : Phase) (retry_count : Nat) : Bool :=
  if retry_count ≥ er.max_retries then false
  else if is_critical_error error phase then false
  else true

/-- `ErrorRecovery.get_retry_delay`: linear backoff
`retry_delay * (retry_count + 1)`. -/
def ErrorRecovery.get_retry_delay (er : ErrorRecovery) (retry_count : Nat) : ℚ :=
  er.retry_delay * (retry_count + 1)

/-- Claim C3 (counterexample): the claim says UPDATE-phase errors are
non-critical regardless of the error text, but the keyword scan runs before
the UPDATE-phase exemption: an UPDATE-phase error reading "permission denied"
is classified critical. -/
theorem is_critical_error_update_permission_denied :
    is_critical_error "permission denied" Phase.update = true := by decide

/-- Claim C3 (amended): an error occurring in the UPDATE phase is classified
as non-critical provided its lower-cased text contains none of the fixed
critical keywords; the classification takes no retry count at all, so it is
independent of the retry count. -/
theorem is_critical_error_update_noncritical (error : String)
    (h : critical_patterns.all
      (fun p => !(contains_sub (py_lower error).data p.data)) = true) :
    is_critical_error error Phase.update = false := by
  unfold is_critical_error
  simp only [List.all_eq_true] at h
  have hany : critical_patterns.any
      (fun p => contains_sub (py_lower error).data p.data) = false := by
    simp only [List.any_eq_false]
    intro p hp
    have := h p hp
    simpa using this
  simp [hany]

/-- Claim C3 amended-theorem witness at the concrete error "model missing". -/
theorem is_critical_error_update_noncritical_witness :
    is_critical_error "model missing" Phase.update = false :=
  is_critical_error_update_noncritical "model missing" (by decide)

/-- Claim C4: for a non-critical error, `should_retry` recommends retry
exactly while `retry_count < max_retries` (hence no retry at
`retry_count = max_retries`), the retry delay is the linear backoff
`retry_delay * (retry_count + 1)`, and the defaults are `max_retries = 2`
and `retry_delay = 2` seconds. -/
theorem should_retry_linear_backoff (er : ErrorRecovery) (error : String)
    (phase : Phase) (retry_count : Nat)
    (h : is_critical_error error phase = false) :
    (er.should_retry error phase retry_count = true ↔
      retry_count < er.max_retries) ∧
    er.should_retry error phase er.max_retries = false ∧
    er.get_retry_delay retry_count = er.retry_delay * (retry_count + 1) ∧
    ({} : ErrorRecovery).max_retries = 2 ∧
    ({} : ErrorRecovery).retry_delay = 2 := by
  refine ⟨?_, ?_, rfl, rfl, rfl⟩
  · unfold ErrorRecovery.should_retry
    rw [h]
    by_cases hge : retry_count ≥ er.max_retries
    · rw [if_pos hge]
      constructor
      · intro hfalse
        exact absurd hfalse Bool.false_ne_true
      · intro hlt
        exact absurd hlt (by omega)
    · rw [if_neg hge, if_neg Bool.false_ne_true]
      constructor
      · intro _
        omega
      · intro _
        rfl
  · unfold ErrorRecovery.should_retry
    simp

/-- Claim C4 witness: default policy, non-critical error "generation failed",
retry count 0. -/
theorem should_retry_linear_backoff_witness :
    (({} : ErrorRecovery).should_retry "generation failed" Phase.study 0 = true ↔
      0 < ({} : ErrorRecovery).max_retries) ∧
    ({} : ErrorRecovery).should_retry "generation failed" Phase.study
      ({} : ErrorRecovery).max_retries = false ∧
    ({} : ErrorRecovery).get_retry_delay 0 = ({} : ErrorRecovery).retry_delay * (0 + 1) ∧
    ({} : ErrorRecovery).max_retries = 2 ∧
    ({} : ErrorRecovery).retry_delay = 2 :=
  should_retry_linear_backoff {} "generation failed" Phase.study 0 (by decide)

/-! ## Task list store (src/lib/ralph_loop_engine/task_parser.py `read_tasks`,
identical to `RalphLoopEngine._read_fix_plan`).  A document is modelled as the
list of its lines (without line terminators; the code strips each line
anyway); a missing file is `none`. -/

/-- The scanning loop of `read_tasks` / `_read_fix_plan`, faithful to the
Python control flow: the flag is `in_priority_section`. -/
def read_fix_plan_lines (in_priority : Bool) : List String → List String
  | [] => []
  | raw :: rest =>
    let line := py_strip raw.data
    if starts_with line "## High Priority".data
        || starts_with line "## Medium Priority".data
        || starts_with line "## Low Priority".data then
      read_fix_plan_lines true rest
    else if starts_with line "##".data then
      read_fix_plan_lines false rest
    else if in_priority && starts_with line "- [ ]".data then
      let task := py_strip (line.drop 5)
      if task.isEmpty then read_fix_plan_lines in_priority rest
      else (⟨task⟩ : String) :: read_fix_plan_lines in_priority rest
    else
      read_fix_plan_lines in_priority rest

/-- `read_tasks()` / `_read_fix_plan()`: returns `[]` when the document does
not exist, else scans the lines with the priority-section flag off. -/
def read_fix_plan (doc : Option (List String)) : List String :=
  match doc with
  | none => []
  | some lines => read_fix_plan_lines false lines

/-- A stripped line opening one of the three recognized priority sections. -/
def is_priority_header (s : List Char) : Bool :=
  starts_with s "## High Priority".data || starts_with s "## Medium Priority".data
    || starts_with s "## Low Priority".data

/-- A stripped line that is any other `##` header (resets section membership). -/
def is_other_header (s : List Char) : Bool :=
  starts_with s "##".data && !(is_priority_header s)

/-- A stripped line beginning with the incomplete-checkbox marker `- [ ]`. -/
def is_incomplete_line (s : List Char) : Bool :=
  starts_with s "- [ ]".data

/-- The task text of a checkbox line: marker and surrounding whitespace
stripped. -/
def task_text (s : List Char) : List Char := py_strip (s.drop 5)

/-- Formalization of the spec's description of `read_incomplete_tasks()`
(§4.1): scan top to bottom, track whether the current line lies within a
recognized priority section, capture `- [ ] text` lines (with nonempty text)
inside such a section with marker and whitespace stripped, and reset
membership at any other `##` header. -/
def spec_incomplete_tasks_scan (in_section : Bool) : List String → List String
  | [] => []
  | l :: ls =>
    let s := py_strip l.data
    if is_priority_header s then spec_incomplete_tasks_scan true ls
    else if is_other_header s then spec_incomplete_tasks_scan false ls
    else if in_section && is_incomplete_line s && !(task_text s).isEmpty then
      (⟨task_text s⟩ : String) :: spec_incomplete_tasks_scan in_section ls
    else spec_incomplete_tasks_scan in_section ls

/-- The spec-side reading of a task-list document: not inside any priority
section initially. -/
def spec_incomplete_tasks (doc : List String) : List String :=
  spec_incomplete_tasks_scan false doc

theorem read_fix_plan_lines_eq_spec (doc : List String) :
    ∀ b, read_fix_plan_lines b doc = spec_incomplete_tasks_scan b doc := by
  induction doc with
  | nil => intro b; rfl
  | cons l ls ih =>
    intro b
    simp only [read_fix_plan_lines, spec_incomplete_tasks_scan,
      is_priority_header, is_other_header, is_incomplete_line, task_text]
    by_cases h1 : (starts_with (py_strip l.data) "## High Priority".data
        || starts_with (py_strip l.data) "## Medium Priority".data
        || starts_with (py_strip l.data) "## Low Priority".data) = true
    · simp [h1, ih]
    · by_cases h2 : starts_with (py_strip l.data) "##".data = true
      · simp [h1, h2, ih]
      · by_cases h3 : starts_with (py_strip l.data) "- [ ]".data = true
        · by_cases h4 : (py_strip ((py_strip l.data).drop 5)).isEmpty = true
          · cases b <;> simp [h1, h2, h3, h4, ih]
          · cases b <;> simp [h1, h2, h3, h4, ih]
        · cases b <;> simp [h1, h2, h3, ih]

/-- Claim C5: reading the task list returns the empty sequence when the
document does not exist, and on any existing document it returns exactly the
incomplete checkbox lines (`- [ ] text`, nonempty text) that lie within the
High/Medium/Low priority sections, in top-to-bottom order, marker and
whitespace stripped — every `- [x]` line and every checkbox line outside a
priority section is excluded, as formalized by `spec_incomplete_tasks`. -/
theorem read_fix_plan_correct :
    read_fix_plan none = [] ∧
    ∀ doc, read_fix_plan (some doc) = spec_incomplete_tasks doc := by
  refine ⟨rfl, fun doc => ?_⟩
  exact read_fix_plan_lines_eq_spec doc false

/-! ## Marking tasks complete (task_parser.py `mark_task_complete`).

`mark_task_complete` builds the pattern `(- \[ \] re.escape(task))` — a fully
literal regex with one group spanning the whole match — and substitutes the
replacement string `- [x] {task}` with `re.sub(..., count=1)`.  Matching is
therefore literal first-occurrence search for `- [ ] task`, but the
replacement string is a `re.sub` TEMPLATE: backslash escapes in it are
processed (`\1` is a backreference, a trailing backslash is an error).  The
template expansion below follows CPython's `re._parser.parse_template` for a
pattern with one group whose text is the whole match (group 0 and group 1
coincide); numeric `\g<...>` names are modelled for plain digit strings. -/

/-- ASCII digit test. -/
def is_ascii_digit (c : Char) : Bool := '0' ≤ c && c ≤ '9'

/-- ASCII octal digit test. -/
def is_octal_digit (c : Char) : Bool := '0' ≤ c && c ≤ '7'

/-- ASCII letter test. -/
def is_ascii_letter (c : Char) : Bool :=
  ('a' ≤ c && c ≤ 'z') || ('A' ≤ c && c ≤ 'Z')

/-- Numeric value of an ASCII digit. -/
def digit_val (c : Char) : Nat := c.toNat - 48

/-- The fixed escape table of `re` templates
(`\a \b \f \n \r \t \v \\`). -/
def template_escapes (c : Char) : Option Char :=
  if c = 'a' then some (Char.ofNat 7)
  else if c = 'b' then some (Char.ofNat 8)
  else if c = 'f' then some (Char.ofNat 12)
  else if c = 'n' then some (Char.ofNat 10)
  else if c = 'r' then some (Char.ofNat 13)
  else if c = 't' then some (Char.ofNat 9)
  else if c = 'v' then some (Char.ofNat 11)
  else if c = '\\' then some '\\'
  else none

/-- Split a char list at its first `'>'`, returning the part before and the
part after (used for `\g<name>` scanning). -/
def split_at_gt : List Char → Option (List Char × List Char)
  | [] => none
  | c :: cs =>
    if c = '>' then some ([], cs)
    else (split_at_gt cs).map (fun p => (c :: p.1, p.2))

/-- Worker for `expand_template`, structurally recursive on a fuel that the
driver sets to the template length; every step consumes at least one template
character before recursing, so the zero-fuel branch is unreachable. -/
def expand_template_go (g1 : List Char) : Nat → List Char → Option (List Char)
  | _, [] => some []
  | 0, _ :: _ => none
  | fuel + 1, '\\' :: rest =>
    match rest with
    | [] => none
    | d :: rest2 =>
      if d = 'g' then
        match rest2 with
        | '<' :: rest3 =>
          match split_at_gt rest3 with
          | some (name, rest4) =>
            if name ≠ [] && name.all is_ascii_digit then
              if name.foldl (fun n c => n * 10 + digit_val c) 0 ≤ 1 then
                (expand_template_go g1 fuel rest4).map (fun e => g1 ++ e)
              else none
            else none
          | none => none
        | _ => none
      else if d = '0' then
        let ds := (rest2.take 2).takeWhile is_octal_digit
        (expand_template_go g1 fuel (rest2.drop ds.length)).map
          (fun e => Char.ofNat ((ds.foldl (fun n c => n * 8 + digit_val c) 0) % 256) :: e)
      else if is_ascii_digit d then
        match rest2 with
        | d2 :: d3 :: rest4 =>
          if is_ascii_digit d2 then
            if is_octal_digit d && is_octal_digit d2 && is_octal_digit d3 then
              (expand_template_go g1 fuel rest4).map
                (fun e =>
                  Char.ofNat (((digit_val d * 8 + digit_val d2) * 8 + digit_val d3) % 256) :: e)
            else none
          else
            if digit_val d = 1 then
              (expand_template_go g1 fuel (d2 :: d3 :: rest4)).map (fun e => g1 ++ e)
            else none
        | [d2] =>
          if is_ascii_digit d2 then none
          else if digit_val d = 1 then
            (expand_template_go g1 fuel [d2]).map (fun e => g1 ++ e)
          else none
        | [] => if digit_val d = 1 then some g1 else none
      else
        match template_escapes d with
        | some ch => (expand_template_go g1 fuel rest2).map (fun e => ch :: e)
        | none =>
          if is_ascii_letter d then none
          else (expand_template_go g1 fuel rest2).map (fun e => '\\' :: d :: e)
  | fuel + 1, c :: rest => (expand_template_go g1 fuel rest).map (fun e => c :: e)

/-- Expansion of a `re.sub` replacement template against a match whose
group 1 (= group 0) text is `g1`; `none` models a raised `re.error`
(bad escape, invalid group reference, unknown group name). -/
def expand_template (g1 t : List Char) : Option (List Char) :=
  expand_template_go g1 t.length t

/-- Split `hay` at the first occurrence of `needle`, returning the part
before the occurrence and the part after it (`none` when absent). -/
def split_at_sub (hay needle : List Char) : Option (List Char × List Char) :=
  if starts_with hay needle then some ([], hay.drop needle.length)
  else
    match hay with
    | [] => none
    | c :: cs => (split_at_sub cs needle).map (fun p => (c :: p.1, p.2))

/-- `TaskParser.mark_task_complete`: the document is `none` when
`@fix_plan.md` does not exist (returns `False`); otherwise the first literal
occurrence of `- [ ] task` (the escaped pattern is literal, group 1 = whole
match) is substituted with the expanded template `- [x] task`, the file is
rewritten only when the result differs, and the flag reports whether a write
happened.  The outer `none` models a `re.error` escaping the call. -/
def mark_task_complete (doc : Option String) (task : String) :
    Option (Option String × Bool) :=
  match doc with
  | none => some (none, false)
  | some content =>
    let needle := ("- [ ] " ++ task).data
    let tmpl := ("- [x] " ++ task).data
    match split_at_sub content.data needle with
    | none => some (some content, false)
    | some (pre, post) =>
      match expand_template needle tmpl with
      | none => none
      | some rep =>
        let new_content : String := ⟨pre ++ rep ++ post⟩
        if new_content = content then some (some content, false)
        else some (some new_content, true)

/-- Claim C6 (code bug): the replacement string `- [x] {task}` is passed to
`re.sub` without escaping, so for the task `\1` (backslash, one) the `\1` in
the replacement is processed as a backreference and expands to the whole
match, turning `- [ ] \1` into `- [x] - [ ] \1` instead of the claimed
`- [x] \1`; a task ending in a lone backslash even raises `re.error`. -/
theorem mark_task_complete_backslash_bug :
    mark_task_complete (some "- [ ] \\1") "\\1"
      = some (some "- [x] - [ ] \\1", true) ∧
    mark_task_complete (some "- [ ] x\\") "x\\" = none := by
  constructor <;> decide

/-! ## Path sanitization (`RalphLoopEngine._sanitize_file_path`). -/

/-- The characters `_sanitize_file_path` replaces with underscores
(`invalid_chars = '<>:"|?*\\'`). -/
def invalid_path_chars : List Char := ['<', '>', ':', '"', '|', '?', '*', '\\']

/-- Python `path.replace(c, '')`: delete every occurrence of `c`. -/
def remove_char (c : Char) (l : List Char) : List Char :=
  l.filter (fun x => !(x = c))

/-- Python `path.replace(c, r)` for single characters. -/
def replace_char (c r : Char) (l : List Char) : List Char :=
  l.map (fun x => if x = c then r else x)

/-- `'.'` or `' '`, the characters of Python `path.strip('. ')`. -/
def is_dot_space (c : Char) : Bool := c = '.' || c = ' '

/-- Strip characters satisfying `p` from both ends of a list. -/
def strip_ends (p : Char → Bool) (l : List Char) : List Char :=
  ((l.dropWhile p).reverse.dropWhile p).reverse

/-- Python `path.rsplit('.', 1)`: split at the last dot into (name, ext);
only used when the path contains a dot. -/
def rsplit_dot (l : List Char) : List Char × List Char :=
  let rev := l.reverse
  let ext_rev := rev.takeWhile (fun c => !(c = '.'))
  ((rev.drop (ext_rev.length + 1)).reverse, ext_rev.reverse)

/-- The length-limiting step of `_sanitize_file_path`: paths longer than 200
characters are truncated, keeping a `.ext` suffix of at most 10 characters
when one is present. -/
def truncate_path (p : List Char) : List Char :=
  if 200 < p.length then
    if p.contains '.' then
      let ne := rsplit_dot p
      if ne.2.length ≤ 10 then
        ne.1.take (200 - ne.2.length - 1) ++ '.' :: ne.2
      else p.take 200
    else p.take 200
  else p

/-- `_sanitize_file_path`: drop newlines and carriage returns, replace the
invalid filesystem characters with `_` (in the source's order), truncate to
at most 200 characters preserving a short extension, strip leading/trailing
dots and spaces, and fall back to `"file"` when nothing remains. -/
def sanitize_file_path (path : String) : String :=
  let p1 := remove_char '\n' path.data
  let p2 := remove_char (Char.ofNat 13) p1
  let p3 := invalid_path_chars.foldl (fun p c => replace_char c '_' p) p2
  let p4 := truncate_path p3
  let p5 := strip_ends is_dot_space p4
  if p5.isEmpty then "file" else ⟨p5⟩

/-- `ends_with l s`: `l` ends with the suffix `s`. -/
def ends_with (l s : List Char) : Bool :=
  starts_with l.reverse s.reverse

theorem mem_remove_char {x c : Char} {l : List Char}
    (h : x ∈ remove_char c l) : x ∈ l ∧ x ≠ c := by
  unfold remove_char at h
  have hm := List.mem_filter.mp h
  refine ⟨hm.1, ?_⟩
  intro hx
  subst hx
  simpa using hm.2

theorem mem_replace_char {x c r : Char} {l : List Char}
    (h : x ∈ replace_char c r l) : (x ∈ l ∧ x ≠ c) ∨ x = r := by
  unfold replace_char at h
  obtain ⟨y, hy, hxy⟩ := List.mem_map.mp h
  by_cases hyc : y = c
  · right
    rw [if_pos hyc] at hxy
    exact hxy.symm
  · left
    rw [if_neg hyc] at hxy
    subst hxy
    exact ⟨hy, hyc⟩

theorem mem_foldl_replace (L : List Char) :
    ∀ (p : List Char) (x : Char),
      x ∈ L.foldl (fun acc c => replace_char c '_' acc) p →
      (x ∈ p ∧ x ∉ L) ∨ x = '_' := by
  induction L with
  | nil => intro p x h; exact Or.inl ⟨h, by simp⟩
  | cons c cs ih =>
    intro p x h
    simp only [List.foldl_cons] at h
    rcases ih (replace_char c '_' p) x h with ⟨hmem, hnot⟩ | heq
    · rcases mem_replace_char hmem with ⟨hp, hne⟩ | heq
      · exact Or.inl ⟨hp, by simp [hne, hnot]⟩
      · exact Or.inr heq
    · exact Or.inr heq

theorem head?_dropWhile {p : Char → Bool} :
    ∀ {m : List Char} {c : Char}, (m.dropWhile p).head? = some c → p c = false := by
  intro m
  induction m with
  | nil => intro c h; simp [List.dropWhile] at h
  | cons a as ih =>
    intro c h
    rw [List.dropWhile_cons] at h
    by_cases ha : p a = true
    · rw [if_pos ha] at h
      exact ih h
    · rw [if_neg ha] at h
      simp at h
      subst h
      simpa using ha

theorem getLast?_dropWhile {p : Char → Bool} :
    ∀ {m : List Char}, m.dropWhile p ≠ [] →
      (m.dropWhile p).getLast? = m.getLast? := by
  intro m
  induction m with
  | nil => intro h; simp [List.dropWhile] at h
  | cons a as ih =>
    intro h
    rw [List.dropWhile_cons]
    rw [List.dropWhile_cons] at h
    by_cases ha : p a = true
    · rw [if_pos ha] at h ⊢
      rw [ih h]
      cases as with
      | nil => exact absurd rfl h
      | cons b bs => exact (List.getLast?_cons_cons).symm
    · rw [if_neg ha]

theorem strip_ends_head {p : Char → Bool} {l : List Char} {c : Char}
    (h : (strip_ends p l).head? = some c) : p c = false := by
  unfold strip_ends at h
  rw [List.head?_reverse] at h
  have hne : (l.dropWhile p).reverse.dropWhile p ≠ [] := by
    intro hnil
    rw [hnil] at h
    simp at h
  rw [getLast?_dropWhile hne, List.getLast?_reverse] at h
  exact head?_dropWhile h

theorem strip_ends_getLast {p : Char → Bool} {l : List Char} {c : Char}
    (h : (strip_ends p l).getLast? = some c) : p c = false := by
  unfold strip_ends at h
  rw [List.getLast?_reverse] at h
  exact head?_dropWhile h

theorem strip_ends_subset {p : Char → Bool} {l : List Char} :
    ∀ x ∈ strip_ends p l, x ∈ l := by
  intro x hx
  unfold strip_ends at hx
  rw [List.mem_reverse] at hx
  have h1 := (List.dropWhile_sublist (l := (l.dropWhile p).reverse) p).subset hx
  rw [List.mem_reverse] at h1
  exact (List.dropWhile_sublist p).subset h1

theorem strip_ends_length {p : Char → Bool} (l : List Char) :
    (strip_ends p l).length ≤ l.length := by
  unfold strip_ends
  calc ((l.dropWhile p).reverse.dropWhile p).reverse.length
      = ((l.dropWhile p).reverse.dropWhile p).length := by rw [List.length_reverse]
    _ ≤ (l.dropWhile p).reverse.length := (List.dropWhile_sublist p).length_le
    _ = (l.dropWhile p).length := by rw [List.length_reverse]
    _ ≤ l.length := (List.dropWhile_sublist p).length_le

theorem rsplit_dot_subset (l : List Char) :
    (∀ x ∈ (rsplit_dot l).1, x ∈ l) ∧ (∀ x ∈ (rsplit_dot l).2, x ∈ l) := by
  unfold rsplit_dot
  constructor
  · intro x hx
    simp only [List.mem_reverse] at hx
    have := (List.drop_subset _ _) hx
    rwa [List.mem_reverse] at this
  · intro x hx
    simp only [List.mem_reverse] at hx
    have := (List.takeWhile_sublist _).subset hx
    rwa [List.mem_reverse] at this

theorem mem_truncate_path {x : Char} {p : List Char}
    (h : x ∈ truncate_path p) : x ∈ p ∨ x = '.' := by
  unfold truncate_path at h
  by_cases h1 : 200 < p.length
  · rw [if_pos h1] at h
    by_cases h2 : p.contains '.' = true
    · rw [if_pos h2] at h
      by_cases h3 : (rsplit_dot p).2.length ≤ 10
      · rw [if_pos h3] at h
        rcases List.mem_append.mp h with hl | hr
        · exact Or.inl ((rsplit_dot_subset p).1 x (List.take_subset _ _ hl))
        · rcases List.mem_cons.mp hr with hdot | hext
          · exact Or.inr hdot
          · exact Or.inl ((rsplit_dot_subset p).2 x hext)
      · rw [if_neg h3] at h
        exact Or.inl (List.take_subset _ _ h)
    · rw [if_neg h2] at h
      exact Or.inl (List.take_subset _ _ h)
  · rw [if_neg h1] at h
    exact Or.inl h

theorem truncate_path_le_200 (p : List Char) :
    (truncate_path p).length ≤ 200 := by
  unfold truncate_path
  by_cases h1 : 200 < p.length
  · rw [if_pos h1]
    by_cases h2 : p.contains '.' = true
    · rw [if_pos h2]
      by_cases h3 : (rsplit_dot p).2.length ≤ 10
      · rw [if_pos h3]
        simp only [List.length_append, List.length_take, List.length_cons]
        have := Nat.min_le_left ((rsplit_dot p).1.length) (200 - (rsplit_dot p).2.length - 1)
        omega
      · rw [if_neg h3]
        simp only [List.length_take]
        omega
    · rw [if_neg h2]
      simp only [List.length_take]
      omega
  · rw [if_neg h1]
    omega

theorem starts_with_append : ∀ (x y : List Char), starts_with (x ++ y) x = true := by
  intro x
  induction x with
  | nil =>
    intro y
    cases y <;> rfl
  | cons c cs ih =>
    intro y
    rw [List.cons_append]
    show (c == c && starts_with (cs ++ y) cs) = true
    rw [ih y]
    simp

/-- The characters the sanitizer must never let through: newline, carriage
return, and the invalid filesystem characters. -/
def forbidden_path_chars : List Char :=
  '\n' :: Char.ofNat 13 :: invalid_path_chars

/-- The character-cleaning prefix of `_sanitize_file_path` (newline/CR
removal followed by the invalid-character replacement fold). -/
def clean_path_chars (s : String) : List Char :=
  invalid_path_chars.foldl (fun p c => replace_char c '_' p)
    (remove_char (Char.ofNat 13) (remove_char '\n' s.data))

theorem sanitize_file_path_eq (s : String) :
    sanitize_file_path s =
      (if (strip_ends is_dot_space (truncate_path (clean_path_chars s))).isEmpty
       then "file"
       else ⟨strip_ends is_dot_space (truncate_path (clean_path_chars s))⟩) := rfl

set_option maxHeartbeats 1000000 in
/-- Claim C8: for every input, the sanitized path contains no newline,
carriage return, or invalid filesystem character; its length is at most 200;
it neither begins nor ends with a dot or a space; it is never the empty
string; the truncation step preserves a short (≤ 10 chars) extension for
over-long paths; and an input that sanitizes away entirely yields the
literal string `"file"`. -/
theorem sanitize_file_path_safe (s : String) :
    (∀ c ∈ (sanitize_file_path s).data, c ∉ forbidden_path_chars) ∧
    (sanitize_file_path s).data.length ≤ 200 ∧
    (∀ c, (sanitize_file_path s).data.head? = some c → is_dot_space c = false) ∧
    (∀ c, (sanitize_file_path s).data.getLast? = some c → is_dot_space c = false) ∧
    sanitize_file_path s ≠ "" ∧
    (∀ p : List Char, 200 < p.length → p.contains '.' = true →
      (rsplit_dot p).2.length ≤ 10 →
      (truncate_path p).length ≤ 200 ∧
      ends_with (truncate_path p) ('.' :: (rsplit_dot p).2) = true) ∧
    sanitize_file_path "\n. ." = "file" := by
  rw [sanitize_file_path_eq]
  by_cases hq : (strip_ends is_dot_space (truncate_path (clean_path_chars s))).isEmpty = true
  · rw [if_pos hq]
    refine ⟨?_, by decide, ?_, ?_, by decide, ?_, by decide⟩
    · intro c hc
      have hd : ("file" : String).data = ['f', 'i', 'l', 'e'] := rfl
      rw [hd] at hc
      fin_cases hc <;> decide
    · intro c hc
      have : c = 'f' := by
        have hd : ("file" : String).data.head? = some 'f' := rfl
        rw [hd] at hc
        exact (Option.some.injEq _ _ ▸ hc).symm
      subst this
      decide
    · intro c hc
      have : c = 'e' := by
        have hd : ("file" : String).data.getLast? = some 'e' := by decide
        rw [hd] at hc
        exact (Option.some.injEq _ _ ▸ hc).symm
      subst this
      decide
    · intro p h1 h2 h3
      exact ⟨truncate_path_le_200 p, by
        unfold truncate_path
        rw [if_pos h1, if_pos h2, if_pos h3]
        unfold ends_with
        rw [List.reverse_append]
        exact starts_with_append _ _⟩
  · rw [if_neg hq]
    refine ⟨?_, ?_, ?_, ?_, ?_, ?_, by decide⟩
    · intro c hc
      have h1 := strip_ends_subset c hc
      rcases mem_truncate_path h1 with h2 | h2
      · rcases mem_foldl_replace invalid_path_chars _ c h2 with ⟨h3, hninv⟩ | h3
        · obtain ⟨h4, hcr⟩ := mem_remove_char h3
          obtain ⟨h5, hnl⟩ := mem_remove_char h4
          intro hmem
          rcases List.mem_cons.mp hmem with he | hmem2
          · exact hnl he
          · rcases List.mem_cons.mp hmem2 with he | he
            · exact hcr he
            · exact hninv he
        · subst h3
          decide
      · subst h2
        decide
    · calc (strip_ends is_dot_space (truncate_path (clean_path_chars s))).length
          ≤ (truncate_path (clean_path_chars s)).length := strip_ends_length _
        _ ≤ 200 := truncate_path_le_200 _
    · intro c hc
      exact strip_ends_head hc
    · intro c hc
      exact strip_ends_getLast hc
    · intro habs
      have : strip_ends is_dot_space (truncate_path (clean_path_chars s)) = [] := by
        have := congrArg String.data habs
        simpa using this
      rw [this] at hq
      exact hq rfl
    · intro p h1 h2 h3
      exact ⟨truncate_path_le_200 p, by
        unfold truncate_path
        rw [if_pos h1, if_pos h2, if_pos h3]
        unfold ends_with
        rw [List.reverse_append]
        exact starts_with_append _ _⟩

set_option maxRecDepth 4000 in
set_option maxHeartbeats 1000000 in
/-- Claim C8 witness: the sanitizer applied to `"src/a.py"` together with a
253-character over-long path exercising the extension-preserving truncation. -/
theorem sanitize_file_path_safe_witness :
    'r' ∉ forbidden_path_chars ∧
    is_dot_space 's' = false ∧
    is_dot_space 'y' = false ∧
    (truncate_path (List.replicate 250 'a' ++ ['.', 'p', 'y'])).length ≤ 200 ∧
    ends_with (truncate_path (List.replicate 250 'a' ++ ['.', 'p', 'y']))
      ('.' :: (rsplit_dot (List.replicate 250 'a' ++ ['.', 'p', 'y'])).2) = true :=
  ⟨(sanitize_file_path_safe "src/a.py").1 'r' (by decide),
   (sanitize_file_path_safe "src/a.py").2.2.1 's' (by decide),
   (sanitize_file_path_safe "src/a.py").2.2.2.1 'y' (by decide),
   ((sanitize_file_path_safe "src/a.py").2.2.2.2.2.1
      (List.replicate 250 'a' ++ ['.', 'p', 'y'])
      (by decide) (by decide) (by decide)).1,
   ((sanitize_file_path_safe "src/a.py").2.2.2.2.2.1
      (List.replicate 250 'a' ++ ['.', 'p', 'y'])
      (by decide) (by decide) (by decide)).2⟩

/-! ## Code block extraction (`RalphLoopEngine._parse_code_blocks`,
`_extract_file_path`, `_infer_file_extension`).

The stdlib collaborators are embedded as well: `urllib.parse.unquote`
(percent-decoding with UTF-8 `errors='replace'`; on invalid UTF-8 the
replacement granularity follows the maximal-subpart rule for the common
truncation shapes) and `json.loads` (a syntax validator for the strict JSON
grammar plus the `NaN`/`Infinity`/`-Infinity` constants CPython accepts). -/

/-- Hexadecimal digit value. -/
def hex_val (c : Char) : Option Nat :=
  if '0' ≤ c && c ≤ '9' then some (c.toNat - 48)
  else if 'a' ≤ c && c ≤ 'f' then some (c.toNat - 87)
  else if 'A' ≤ c && c ≤ 'F' then some (c.toNat - 55)
  else none

/-- Consume a maximal run of valid `%XX` groups, returning the decoded bytes
and the rest of the input. -/
def take_pct_bytes : List Char → (List Nat × List Char)
  | '%' :: h1 :: h2 :: rest =>
    match hex_val h1, hex_val h2 with
    | some a, some b =>
      let p := take_pct_bytes rest
      ((a * 16 + b) :: p.1, p.2)
    | _, _ => ([], '%' :: h1 :: h2 :: rest)
  | l => ([], l)

/-- The Unicode replacement character U+FFFD. -/
def repl_char : Char := Char.ofNat 0xFFFD

/-- UTF-8 continuation byte test. -/
def cont_byte (b : Nat) : Bool := 0x80 ≤ b && b ≤ 0xBF

/-- Valid second byte for a 3-byte lead (excludes overlong/surrogates). -/
def valid_second3 (b b2 : Nat) : Bool :=
  if b = 0xE0 then 0xA0 ≤ b2 && b2 ≤ 0xBF
  else if b = 0xED then 0x80 ≤ b2 && b2 ≤ 0x9F
  else cont_byte b2

/-- Valid second byte for a 4-byte lead (excludes overlong/out-of-range). -/
def valid_second4 (b b2 : Nat) : Bool :=
  if b = 0xF0 then 0x90 ≤ b2 && b2 ≤ 0xBF
  else if b = 0xF4 then 0x80 ≤ b2 && b2 ≤ 0x8F
  else cont_byte b2

/-- Worker for the UTF-8 decoder; structurally recursive on a fuel the
driver sets to the byte-list length (each step consumes at least one byte,
so the zero-fuel branch is unreachable). -/
def utf8_decode_go : Nat → List Nat → List Char
  | 0, _ => []
  | _ + 1, [] => []
  | fuel + 1, b :: bs =>
    if b < 0x80 then Char.ofNat b :: utf8_decode_go fuel bs
    else if 0xC2 ≤ b && b ≤ 0xDF then
      match bs with
      | b2 :: rest =>
        if cont_byte b2 then
          Char.ofNat ((b - 0xC0) * 64 + (b2 - 0x80)) :: utf8_decode_go fuel rest
        else repl_char :: utf8_decode_go fuel (b2 :: rest)
      | [] => [repl_char]
    else if 0xE0 ≤ b && b ≤ 0xEF then
      match bs with
      | b2 :: b3 :: rest =>
        if valid_second3 b b2 then
          if cont_byte b3 then
            Char.ofNat ((b - 0xE0) * 4096 + (b2 - 0x80) * 64 + (b3 - 0x80))
              :: utf8_decode_go fuel rest
          else repl_char :: utf8_decode_go fuel (b3 :: rest)
        else repl_char :: utf8_decode_go fuel (b2 :: b3 :: rest)
      | [b2] =>
        if valid_second3 b b2 then [repl_char]
        else repl_char :: utf8_decode_go fuel [b2]
      | [] => [repl_char]
    else if 0xF0 ≤ b && b ≤ 0xF4 then
      match bs with
      | b2 :: b3 :: b4 :: rest =>
        if valid_second4 b b2 then
          if cont_byte b3 then
            if cont_byte b4 then
              Char.ofNat ((b - 0xF0) * 262144 + (b2 - 0x80) * 4096
                  + (b3 - 0x80) * 64 + (b4 - 0x80)) :: utf8_decode_go fuel rest
            else repl_char :: utf8_decode_go fuel (b4 :: rest)
          else repl_char :: utf8_decode_go fuel (b3 :: b4 :: rest)
        else repl_char :: utf8_decode_go fuel (b2 :: b3 :: b4 :: rest)
      | [b2, b3] =>
        if valid_second4 b b2 then
          if cont_byte b3 then [repl_char]
          else repl_char :: utf8_decode_go fuel [b3]
        else repl_char :: utf8_decode_go fuel [b2, b3]
      | [b2] =>
        if valid_second4 b b2 then [repl_char]
        else repl_char :: utf8_decode_go fuel [b2]
      | [] => [repl_char]
    else repl_char :: utf8_decode_go fuel bs

/-- UTF-8 decoding with `errors='replace'`. -/
def utf8_decode_replace (bs : List Nat) : List Char :=
  utf8_decode_go bs.length bs

/-- Worker for `unquote`; structurally recursive on a fuel the driver sets to
the input length (each step consumes at least one character, so the zero-fuel
branch is unreachable). -/
def unquote_go : Nat → List Char → List Char
  | 0, l => l
  | fuel + 1, [] => []
  | fuel + 1, c :: rest =>
    if c = '%' then
      let p := take_pct_bytes (c :: rest)
      if p.1.isEmpty then c :: unquote_go fuel rest
      else utf8_decode_replace p.1 ++ unquote_go fuel p.2
    else c :: unquote_go fuel rest

/-- `urllib.parse.unquote`: decode runs of `%XX` groups as UTF-8 bytes with
replacement on errors; invalid `%` sequences are left untouched. -/
def unquote (l : List Char) : List Char := unquote_go l.length l

/-- The whitespace characters the strict `json` scanner skips. -/
def json_ws_char (c : Char) : Bool :=
  c = ' ' || c = '\t' || c = '\n' || c = Char.ofNat 13

/-- Skip JSON whitespace. -/
def json_skip_ws (l : List Char) : List Char := l.dropWhile json_ws_char

/-- Parse a JSON string body (after the opening quote), returning the rest;
rejects raw control characters and bad escapes as CPython's strict mode does. -/
def json_string_body : List Char → Option (List Char)
  | [] => none
  | c :: rest =>
    if c = '"' then some rest
    else if c = '\\' then
      match rest with
      | [] => none
      | e :: rest2 =>
        if e = 'u' then
          match rest2 with
          | h1 :: h2 :: h3 :: h4 :: rest3 =>
            if (hex_val h1).isSome && (hex_val h2).isSome
                && (hex_val h3).isSome && (hex_val h4).isSome then
              json_string_body rest3
            else none
          | _ => none
        else if e = '"' || e = '\\' || e = '/' || e = 'b' || e = 'f'
            || e = 'n' || e = 'r' || e = 't' then
          json_string_body rest2
        else none
    else if c.toNat < 0x20 then none
    else json_string_body rest

/-- Consume the optional fraction and exponent parts after the integer part
of a JSON number (each only when well-formed, as the number regex does). -/
def json_number_after_int (l : List Char) : List Char :=
  let l1 :=
    match l with
    | '.' :: r =>
      let ds := r.takeWhile is_ascii_digit
      if ds.isEmpty then l else r.drop ds.length
    | _ => l
  match l1 with
  | e :: r =>
    if e = 'e' || e = 'E' then
      let r2 := match r with
        | s :: rr => if s = '+' || s = '-' then rr else r
        | [] => r
      let ds := r2.takeWhile is_ascii_digit
      if ds.isEmpty then l1 else r2.drop ds.length
    else l1
  | [] => l1

/-- One fueled runner for the JSON grammar.  `mode`: 0 = value, 1 = object
body after `{`, 5 = one object member starting at its key, 3 = after a
member (`,` or `}`), 2 = array body after `[`, 4 = after an item (`,` or
`]`).  The driver supplies ample fuel, so the zero-fuel branch is
unreachable. -/
def json_run : Nat → Nat → List Char → Option (List Char)
  | 0, _, _ => none
  | fuel + 1, mode, l =>
    if mode = 0 then
      match l with
      | [] => none
      | c :: rest =>
        if c = '"' then json_string_body rest
        else if c = '{' then json_run fuel 1 (json_skip_ws rest)
        else if c = '[' then json_run fuel 2 (json_skip_ws rest)
        else if starts_with l "true".data then some (l.drop 4)
        else if starts_with l "false".data then some (l.drop 5)
        else if starts_with l "null".data then some (l.drop 4)
        else if c = '-' then
          match rest with
          | d :: r =>
            if d = '0' then some (json_number_after_int r)
            else if is_ascii_digit d then
              some (json_number_after_int (r.dropWhile is_ascii_digit))
            else if starts_with rest "Infinity".data then some (rest.drop 8)
            else none
          | [] => none
        else if c = '0' then some (json_number_after_int rest)
        else if is_ascii_digit c then
          some (json_number_after_int (rest.dropWhile is_ascii_digit))
        else if starts_with l "NaN".data then some (l.drop 3)
        else if starts_with l "Infinity".data then some (l.drop 8)
        else none
    else if mode = 1 then
      match l with
      | '}' :: rest => some rest
      | _ => json_run fuel 5 l
    else if mode = 5 then
      match l with
      | '"' :: rest =>
        match json_string_body rest with
        | none => none
        | some r1 =>
          match json_skip_ws r1 with
          | ':' :: r3 =>
            match json_run fuel 0 (json_skip_ws r3) with
            | none => none
            | some r4 => json_run fuel 3 (json_skip_ws r4)
          | _ => none
      | _ => none
    else if mode = 3 then
      match l with
      | '}' :: rest => some rest
      | ',' :: rest => json_run fuel 5 (json_skip_ws rest)
      | _ => none
    else if mode = 2 then
      match l with
      | ']' :: rest => some rest
      | _ =>
        match json_run fuel 0 l with
        | none => none
        | some r1 => json_run fuel 4 (json_skip_ws r1)
    else if mode = 4 then
      match l with
      | ']' :: rest => some rest
      | ',' :: rest =>
        match json_run fuel 0 (json_skip_ws rest) with
        | none => none
        | some r1 => json_run fuel 4 (json_skip_ws r1)
      | _ => none
    else none

/-- `json.loads(content)` succeeds: leading/trailing whitespace allowed, one
value, nothing else. -/
def json_valid (content : List Char) : Bool :=
  match json_run (2 * content.length + 8) 0 (json_skip_ws content) with
  | some rest => (json_skip_ws rest).isEmpty
  | none => false

/-- Python-keyword signatures for `.py` inference. -/
def py_keywords : List String := ["def ", "import ", "from ", "class ", "if __name__"]

/-- JavaScript signatures for `.js`/`.ts` inference. -/
def js_keywords : List String :=
  ["function ", "const ", "let ", "var ", "export ", "import "]

/-- Markdown marker signatures. -/
def md_markers : List String := ["# ", "## ", "```", "**", "* "]

/-- `RalphLoopEngine._infer_file_extension`: infer an extension from content
signatures, in the source's order, defaulting to `.py`. -/
def infer_file_extension (content : List Char) : String :=
  let content_lower := py_strip (content.map Char.toLower)
  if py_keywords.any (fun k => contains_sub content_lower k.data) then ".py"
  else if js_keywords.any (fun k => contains_sub content_lower k.data) then
    if contains_sub content_lower "typescript".data
        || contains_sub content_lower "interface ".data
        || contains_sub (content.take 100) ": ".data then ".ts"
    else ".js"
  else if starts_with (py_strip content_lower) "<!doctype".data
      || contains_sub content_lower "<html".data
      || contains_sub content_lower "<div".data then ".html"
  else if content.contains '{' && content.contains ':'
      && (contains_sub content_lower "color:".data
          || contains_sub content_lower "margin:".data) then ".css"
  else if ((starts_with (py_strip content) "\x7b".data && ends_with (py_strip content) "\x7d".data)
        || (starts_with (py_strip content) "[".data && ends_with (py_strip content) "]".data))
      && json_valid content then ".json"
  else if md_markers.any (fun k => contains_sub content_lower k.data) then ".md"
  else if starts_with content_lower "#!/bin/".data
      || starts_with content_lower "#!/usr/bin/".data then ".sh"
  else ".py"

/-- The fixed `language_tags` set of `_extract_file_path`. -/
def language_tags : List String :=
  ["python", "javascript", "js", "typescript", "ts", "java", "cpp", "c++", "c",
   "go", "rust", "ruby", "php", "swift", "kotlin", "scala", "r", "sql", "html",
   "css", "json", "yaml", "yml", "xml", "markdown", "md", "bash", "sh", "shell",
   "powershell", "ps1", "dockerfile", "makefile", "cmake", "txt", "plaintext"]

/-- Case-insensitive `starts_with` (re.IGNORECASE, ASCII folding). -/
def ci_starts_with : List Char → List Char → Bool
  | _, [] => true
  | [], _ :: _ => false
  | c :: cs, p :: ps => (Char.toLower c == Char.toLower p) && ci_starts_with cs ps

/-- The regex whitespace class `\s` (ASCII range). -/
def is_re_space (c : Char) : Bool := is_py_space c

/-- The character class `[:\s]`. -/
def is_colon_space (c : Char) : Bool := c = ':' || is_re_space c

/-- Quote characters stripped around marker paths (`'"\'`'` — double quote,
apostrophe, backtick). -/
def is_quote_char (c : Char) : Bool :=
  c = '"' || c = Char.ofNat 39 || c = Char.ofNat 96

/-- Quote/angle characters stripped around content-extracted paths
(`'"\'`<>'`). -/
def is_quote_angle (c : Char) : Bool :=
  is_quote_char c || c = '<' || c = '>'

/-- The explicit marker prefixes of `_extract_file_path`, in source order. -/
def marker_list : List (List Char) :=
  ["file:".data, "path:".data, "create:".data, "save:".data, "write:".data]

/-- The explicit-marker loop: for the first marker matching the specifier
case-insensitively at the start (`^marker\s*(.+)`), take the remainder,
strip whitespace then quote characters; a nonempty result is the path,
otherwise the loop continues with the next marker. -/
def try_markers : List (List Char) → List Char → Option (List Char)
  | [], _ => none
  | m :: ms, spec =>
    if ci_starts_with spec m then
      let path := strip_ends is_quote_char (py_strip (spec.drop m.length))
      if path.isEmpty then try_markers ms spec else some path
    else try_markers ms spec

/-- Keywords of the first content path pattern
`(?:file|path|create|save|write)[:\s]+([^\s\n]+(?:\s+[^\s\n]+)*)`. -/
def kw_list_p1 : List (List Char) :=
  ["file".data, "path".data, "create".data, "save".data, "write".data]

/-- Keywords of the second pattern `#\s*(?:file|path|create)[:\s]+([^\n]+)`. -/
def kw_list_p2 : List (List Char) := ["file".data, "path".data, "create".data]

/-- Greedy continuation `(?:\s+[^\s\n]+)*` of pattern 1's capture group;
fueled (driver passes the remaining length; each step consumes at least two
characters). -/
def grab_more : Nat → List Char → List Char → List Char × List Char
  | 0, acc, l => (acc, l)
  | fuel + 1, acc, l =>
    let ws := l.takeWhile is_re_space
    if ws.isEmpty then (acc, l)
    else
      let after := l.drop ws.length
      let tok := after.takeWhile (fun c => !(is_re_space c))
      if tok.isEmpty then (acc, l)
      else grab_more fuel (acc ++ ws ++ tok) (after.drop tok.length)

/-- Pattern 1's capture group `[^\s\n]+(?:\s+[^\s\n]+)*` at a position:
a first nonempty non-whitespace token, then greedily further
whitespace-separated tokens. -/
def grab_tokens (l : List Char) : Option (List Char) :=
  let tok := l.takeWhile (fun c => !(is_re_space c))
  if tok.isEmpty then none
  else some (grab_more l.length tok (l.drop tok.length)).1

/-- Backtracking at the `[:\s]+` / group boundary of pattern 1: the class run
gives back characters from its greedy maximum down to one until the group can
start. -/
def p1_backtrack (after_kw : List Char) : Nat → Option (List Char)
  | 0 => none
  | t + 1 =>
    match grab_tokens (after_kw.drop (t + 1)) with
    | some g => some g
    | none => p1_backtrack after_kw t

/-- Try pattern 1's keyword alternation at a fixed position (regex
alternation order; on failure of a keyword's continuation the next keyword is
tried). -/
def match_p1_kw : List (List Char) → List Char → Option (List Char)
  | [], _ => none
  | kw :: kws, l =>
    if ci_starts_with l kw then
      let after_kw := l.drop kw.length
      let m := (after_kw.takeWhile is_colon_space).length
      match p1_backtrack after_kw m with
      | some g => some g
      | none => match_p1_kw kws l
    else match_p1_kw kws l

/-- Pattern 1 at a fixed position. -/
def match_p1_at (l : List Char) : Option (List Char) := match_p1_kw kw_list_p1 l

/-- `re.search`: try a position matcher at every position, left to right. -/
def search_at (f : List Char → Option (List Char)) : List Char → Option (List Char)
  | [] => f []
  | c :: rest =>
    match f (c :: rest) with
    | some g => some g
    | none => search_at f rest

/-- Backtracking for pattern 2's `[:\s]+` / `([^\n]+)` boundary: the group
must start with a non-newline character and runs greedily to the line end. -/
def p2_backtrack (after_kw : List Char) : Nat → Option (List Char)
  | 0 => none
  | t + 1 =>
    match after_kw.drop (t + 1) with
    | [] => p2_backtrack after_kw t
    | c :: rest =>
      if c = '\n' then p2_backtrack after_kw t
      else some ((c :: rest).takeWhile (fun x => !(x = '\n')))

/-- Pattern 2's keyword alternation after `#\s*`. -/
def match_p2_kw : List (List Char) → List Char → Option (List Char)
  | [], _ => none
  | kw :: kws, l =>
    if ci_starts_with l kw then
      let after_kw := l.drop kw.length
      let m := (after_kw.takeWhile is_colon_space).length
      match p2_backtrack after_kw m with
      | some g => some g
      | none => match_p2_kw kws l
    else match_p2_kw kws l

/-- Pattern 2 `#\s*(?:file|path|create)[:\s]+([^\n]+)` at a fixed position. -/
def match_p2_at (l : List Char) : Option (List Char) :=
  match l with
  | '#' :: rest => match_p2_kw kw_list_p2 (rest.drop (rest.takeWhile is_re_space).length)
  | _ => none

/-- Pattern 3 `@file\s+([^\s\n]+)` at a fixed position. -/
def match_p3_at (l : List Char) : Option (List Char) :=
  if ci_starts_with l "@file".data then
    let after := l.drop 5
    let ws := after.takeWhile is_re_space
    if ws.isEmpty then none
    else
      let tok := (after.drop ws.length).takeWhile (fun c => !(is_re_space c))
      if tok.isEmpty then none else some tok
  else none

/-- Backtracking for pattern 4's `([^\s]+)\s*-->` boundary: the greedy group
gives back characters until the remainder (whitespace allowed only at the
greedy maximum, where the next character is whitespace) reads `-->`. -/
def p4_backtrack (g tail : List Char) : Nat → Option (List Char)
  | 0 => none
  | t + 1 =>
    if t + 1 = g.length then
      if starts_with (tail.drop (tail.takeWhile is_re_space).length) "-->".data then
        some (g.take (t + 1))
      else p4_backtrack g tail t
    else
      if starts_with (g.drop (t + 1) ++ tail) "-->".data then some (g.take (t + 1))
      else p4_backtrack g tail t

/-- Pattern 4 `<!--\s*file:\s*([^\s]+)\s*-->` at a fixed position. -/
def match_p4_at (l : List Char) : Option (List Char) :=
  if starts_with l "<!--".data then
    let a1 := l.drop 4
    let a2 := a1.drop (a1.takeWhile is_re_space).length
    if ci_starts_with a2 "file:".data then
      let a3 := a2.drop 5
      let a4 := a3.drop (a3.takeWhile is_re_space).length
      let g := a4.takeWhile (fun c => !(is_re_space c))
      if g.isEmpty then none
      else p4_backtrack g (a4.drop g.length) g.length
    else none
  else none

/-- The cleanup `re.sub(r'^(?:file|path|create|save|write)[:\s]+', '', …)`
applied to an extracted path: remove one leading keyword plus its `[:\s]+`
run when present. -/
def strip_marker_sub_go : List (List Char) → List Char → List Char
  | [], l => l
  | kw :: kws, l =>
    if ci_starts_with l kw then
      let m := ((l.drop kw.length).takeWhile is_colon_space).length
      if m = 0 then strip_marker_sub_go kws l
      else (l.drop kw.length).drop m
    else strip_marker_sub_go kws l

/-- See `strip_marker_sub_go`. -/
def strip_marker_sub (l : List Char) : List Char := strip_marker_sub_go kw_list_p1 l

/-- Post-processing of a content-pattern capture: strip whitespace, remove a
leading marker, strip quote/angle characters; keep only nonempty results of
at most 200 characters (otherwise the pattern loop continues). -/
def content_pattern_result (g : Option (List Char)) : Option (List Char) :=
  match g with
  | none => none
  | some raw =>
    let e := strip_ends is_quote_angle (strip_marker_sub (py_strip raw))
    if !e.isEmpty && e.length ≤ 200 then some e else none

/-- Step (c) of `_extract_file_path`: search the content preview with the
four inline path patterns, in source order. -/
def content_path_search (preview : List Char) : Option (List Char) :=
  match content_pattern_result (search_at match_p1_at preview) with
  | some e => some e
  | none =>
    match content_pattern_result (search_at match_p2_at preview) with
    | some e => some e
    | none =>
      match content_pattern_result (search_at match_p3_at preview) with
      | some e => some e
      | none => content_pattern_result (search_at match_p4_at preview)

/-- `RalphLoopEngine._extract_file_path`.  The specifier is `none` for
Python `None` and for the falsy empty string.  Precedence: explicit marker
prefixes, then path-looking specifiers that are not language tags (with URL
decoding when it changes the string), then inline path hints in the first
500 content characters, then `generated_<index>.<inferred ext>`. -/
def extract_file_path (specifier : Option (List Char)) (content : List Char)
    (file_index : Nat) : String :=
  let from_spec : Option String :=
    match specifier with
    | none => none
    | some spec =>
      if spec.isEmpty then none
      else
        let spec_lower := py_strip (spec.map Char.toLower)
        match try_markers marker_list spec with
        | some path => some (sanitize_file_path ⟨path⟩)
        | none =>
          let has_sep := spec.contains '/' || spec.contains '\\'
          let has_ext := spec.contains '.' && (rsplit_dot spec).2.length ≤ 5
          if (has_sep || has_ext)
              && !(language_tags.any (fun t => spec_lower == t.data)) then
            let decoded := unquote spec
            if decoded ≠ spec then some (sanitize_file_path ⟨decoded⟩)
            else some (sanitize_file_path ⟨spec⟩)
          else none
  match from_spec with
  | some p => p
  | none =>
    let preview := content.take 500
    match content_path_search preview with
    | some path => sanitize_file_path ⟨path⟩
    | none => ⟨("generated_" ++ Nat.repr file_index).data ++ (infer_file_extension content).data⟩

/-- A `{path, content}` pair produced by `_parse_code_blocks`. -/
structure GeneratedFile where
  path : String
  content : String
deriving DecidableEq

/-- Find the closing triple backtick, lazily (`(.*?)` with DOTALL): the
content runs up to the nearest subsequent ``` delimiter. -/
def find_close : List Char → Option (List Char × List Char)
  | [] => none
  | c :: cs =>
    if starts_with (c :: cs) ("```" : String).data then some ([], (c :: cs).drop 3)
    else
      match find_close cs with
      | none => none
      | some p => some (c :: p.1, p.2)

/-- Try the fence pattern ```` ```([^\n`]*)\n(.*?)``` ```` at a fixed
position: opening delimiter, a specifier line free of backticks, a newline,
then the lazily-matched content. -/
def fence_at (cs : List Char) : Option (List Char × List Char × List Char) :=
  if starts_with cs ("```" : String).data then
    let after := cs.drop 3
    let spec := after.takeWhile (fun c => !(c = '\n') && !(c = Char.ofNat 96))
    match after.drop spec.length with
    | '\n' :: body =>
      match find_close body with
      | some p => some (spec, p.1, p.2)
      | none => none
    | _ => none
  else none

/-- `re.finditer` over the fence pattern: try each position left to right,
resuming after the end of a match. -/
def find_fence : List Char → Option (List Char × List Char × List Char)
  | [] => none
  | c :: cs =>
    match fence_at (c :: cs) with
    | some r => some r
    | none => find_fence cs

/-- The block loop of `_parse_code_blocks`: skip blocks whose stripped
content is empty, otherwise resolve the path (a raw empty specifier group
becomes `None`, else the stripped specifier) with the running index
`len(files)`; fueled by the response length (each match consumes input, so
the zero-fuel branch is unreachable). -/
def parse_blocks_go : Nat → List Char → Nat → List GeneratedFile
  | 0, _, _ => []
  | fuel + 1, cs, idx =>
    match find_fence cs with
    | none => []
    | some (spec, content, rest) =>
      let content_s := py_strip content
      if content_s.isEmpty then parse_blocks_go fuel rest idx
      else
        { path := extract_file_path
            (if spec.isEmpty then none else some (py_strip spec)) content_s idx,
          content := ⟨content_s⟩ }
          :: parse_blocks_go fuel rest (idx + 1)

/-- `RalphLoopEngine._parse_code_blocks`. -/
def parse_code_blocks (response : String) : List GeneratedFile :=
  parse_blocks_go response.data.length response.data 0

theorem parse_blocks_go_content_nonempty :
    ∀ (fuel : Nat) (cs : List Char) (idx : Nat) (f : GeneratedFile),
      f ∈ parse_blocks_go fuel cs idx → f.content ≠ "" := by
  intro fuel
  induction fuel with
  | zero => intro cs idx f h; simp [parse_blocks_go] at h
  | succ fuel ih =>
    intro cs idx f h
    simp only [parse_blocks_go] at h
    cases hf : find_fence cs with
    | none => rw [hf] at h; simp at h
    | some r =>
      obtain ⟨spec, content, rest⟩ := r
      rw [hf] at h
      simp only at h
      by_cases hc : (py_strip content).isEmpty = true
      · rw [if_pos hc] at h
        exact ih rest idx f h
      · rw [if_neg hc] at h
        rcases List.mem_cons.mp h with heq | hmem
        · subst heq
          intro habs
          have hdata := congrArg String.data habs
          simp only at hdata
          rw [List.isEmpty_iff] at hc
          have : py_strip content = [] := hdata
          exact hc this
        · exact ih rest (idx + 1) f hmem

/-- Claim C7: a bare recognized language tag is never used as a path —
```` ```python ```` with Python content yields exactly one file named
`generated_0.py` (index-based name, content-inferred extension); a
path-looking specifier is used verbatim (`src/main.py`); a fenced block
whose trimmed content is empty or whitespace-only is omitted entirely, and
in general every extracted block carries nonempty trimmed content. -/
theorem parse_code_blocks_language_tag_policy :
    parse_code_blocks "```python\ndef f(): pass\n```"
      = [⟨"generated_0.py", "def f(): pass"⟩] ∧
    parse_code_blocks "```src/main.py\ncode\n```"
      = [⟨"src/main.py", "code"⟩] ∧
    parse_code_blocks "```python\n   \n```" = [] ∧
    ∀ (response : String) (f : GeneratedFile),
      f ∈ parse_code_blocks response → f.content ≠ "" := by
  refine ⟨by decide, by decide, by decide, ?_⟩
  intro response f h
  exact parse_blocks_go_content_nonempty _ _ _ f h

/-- Claim C7 witness: the nonempty-content conjunct applied to the concrete
`src/main.py` response. -/
theorem parse_code_blocks_language_tag_policy_witness :
    (⟨"src/main.py", "code"⟩ : GeneratedFile).content ≠ "" :=
  parse_code_blocks_language_tag_policy.2.2.2 "```src/main.py\ncode\n```"
    ⟨"src/main.py", "code"⟩
    (by rw [parse_code_blocks_language_tag_policy.2.1]; exact List.mem_singleton.mpr rfl)

/-! ## File change tracker (src/lib/file_tracker.py).

The filesystem is modelled as an association list from relative path to
modification time; `datetime.isoformat` and `fromisoformat().timestamp()`
round-trip mtimes, so snapshot values are kept as the mtimes themselves.
Wall-clock time is passed to each operation; times are integers in tenths of
a second, so the code's 0.5 s cache TTL and 0.2 s check interval become 5
and 2.  The `size`/`path` fields of `tracked_files` entries are never read
by the diff logic and are omitted. -/

/-- `_cache_ttl = 0.5` seconds (5 tenths). -/
def cache_ttl : Int := 5

/-- `_check_interval = 0.2` seconds (2 tenths). -/
def check_interval : Int := 2

/-- The pruned directory names of `take_snapshot`. -/
def exclude_dirs : List String :=
  [".git", "__pycache__", "venv", ".venv", "node_modules", ".cursor", "state"]

/-- The excluded binary extensions of `take_snapshot`. -/
def exclude_exts : List String := [".pyc", ".pyo", ".pyd", ".so", ".dylib"]

/-- Split a char list on a separator character. -/
def split_on_char (c : Char) : List Char → List (List Char)
  | [] => [[]]
  | x :: xs =>
    match split_on_char c xs with
    | [] => [[]]
    | h :: t => if x = c then [] :: h :: t else (x :: h) :: t

/-- A relative path survives the walk: no directory component is excluded
(`dirs[:] = …` pruning), its extension is not excluded, and it is not under
`.git/`. -/
def visible_file (p : String) : Bool :=
  !(((split_on_char '/' p.data).dropLast).any
      (fun d => exclude_dirs.any (fun s => s.data == d)))
    && !(exclude_exts.any (fun e => ends_with p.data e.data))
    && !(starts_with p.data ".git/".data)

/-- The file view a fresh snapshot records. -/
def fs_view (fs : List (String × Int)) : List (String × Int) :=
  fs.filter (fun e => visible_file e.1)

/-- The `{created, modified, deleted}` result of `get_changes`. -/
structure Changes where
  created : List String
  modified : List String
  deleted : List String
deriving DecidableEq

/-- `FileTracker` state. -/
structure FileTracker where
  initial_snapshot : List String
  current_snapshot : List String
  tracked_files : List (String × Int)
  snapshot_cache : Option (List (String × Int))
  snapshot_cache_time : Int
  last_check_time : Int
  last_changes : Option Changes

/-- Freshly constructed tracker (`FileTracker.__init__`). -/
def FileTracker.init : FileTracker :=
  { initial_snapshot := [], current_snapshot := [], tracked_files := [],
    snapshot_cache := none, snapshot_cache_time := 0, last_check_time := 0,
    last_changes := none }

/-- `take_snapshot(force_refresh)`: return the cached snapshot when younger
than the TTL and not forced, else scan and cache. -/
def take_snapshot (t : FileTracker) (fs : List (String × Int)) (now : Int)
    (force_refresh : Bool) : List (String × Int) × FileTracker :=
  match t.snapshot_cache with
  | some cache =>
    if !force_refresh && now - t.snapshot_cache_time < cache_ttl then (cache, t)
    else
      let snap := fs_view fs
      (snap, { t with snapshot_cache := some snap, snapshot_cache_time := now })
  | none =>
    let snap := fs_view fs
    (snap, { t with snapshot_cache := some snap, snapshot_cache_time := now })

/-- `start_tracking()`: record the (possibly cached) snapshot's key set as
both the initial and the current snapshot. -/
def start_tracking (t : FileTracker) (fs : List (String × Int)) (now : Int) :
    FileTracker :=
  let p := take_snapshot t fs now false
  { p.2 with initial_snapshot := p.1.map (fun e => e.1),
             current_snapshot := p.1.map (fun e => e.1) }

/-- Lexicographic order on code points (Python `str` comparison). -/
def chars_lt : List Char → List Char → Bool
  | [], [] => false
  | [], _ :: _ => true
  | _ :: _, [] => false
  | a :: as, b :: bs =>
    if a.toNat < b.toNat then true
    else if b.toNat < a.toNat then false
    else chars_lt as bs

/-- Insertion step of `py_sorted`. -/
def sorted_insert (x : String) : List String → List String
  | [] => [x]
  | y :: ys => if chars_lt x.data y.data then x :: y :: ys else y :: sorted_insert x ys

/-- Python `sorted(…)` on path lists. -/
def py_sorted (l : List String) : List String := l.foldr sorted_insert []

/-- The non-throttled body of `get_changes`: snapshot, set differences
against the *initial* snapshot, and the modified test (tracked recorded
mtime when available, else a live stat compared against the just-taken
snapshot), with results sorted and cached. -/
def get_changes_compute (t : FileTracker) (fs : List (String × Int)) (now : Int) :
    Changes × FileTracker :=
  let p := take_snapshot t fs now false
  let snap := p.1
  let t1 := p.2
  let current_files := snap.map (fun e => e.1)
  let created := current_files.filter (fun f => !(decide (f ∈ t.initial_snapshot)))
  let deleted := t.initial_snapshot.filter (fun f => !(decide (f ∈ current_files)))
  let common := current_files.filter (fun f => decide (f ∈ t.initial_snapshot))
  let modified := common.filter (fun f =>
    match t.tracked_files.lookup f with
    | some old_mtime =>
      match snap.lookup f with
      | some cur => decide (old_mtime < cur)
      | none => false
    | none =>
      match fs.lookup f, snap.lookup f with
      | some cur_live, some snap_m => decide (snap_m < cur_live)
      | _, _ => false)
  let changes : Changes :=
    { created := py_sorted created, modified := py_sorted modified,
      deleted := py_sorted deleted }
  (changes, { t1 with last_changes := some changes, last_check_time := now })

/-- `get_changes()` (`diff()` of the spec): throttled to the check interval
when a cached result exists. -/
def get_changes (t : FileTracker) (fs : List (String × Int)) (now : Int) :
    Changes × FileTracker :=
  if now - t.last_check_time < check_interval then
    match t.last_changes with
    | some ch => (ch, t)
    | none => get_changes_compute t fs now
  else get_changes_compute t fs now

/-- Python dict update `tracked_files[f] = {...}`. -/
def tracked_insert (tr : List (String × Int)) (f : String) (m : Int) :
    List (String × Int) :=
  (tr.filter (fun e => !(e.1 == f))) ++ [(f, m)]

/-- `update_snapshot()` (`update_baseline()` of the spec): compute the
changes, fold the live stat of each created/modified path into
`tracked_files`, advance `current_snapshot`, and invalidate the snapshot
cache.  The *initial* snapshot is left untouched. -/
def update_snapshot (t : FileTracker) (fs : List (String × Int)) (now : Int) :
    Changes × FileTracker :=
  let pc := get_changes t fs now
  let changes := pc.1
  let t1 := pc.2
  let p2 :=
    if !changes.created.isEmpty || !changes.modified.isEmpty then
      let ps := take_snapshot t1 fs now false
      let files_to_update := changes.created ++ changes.modified
      let tracked := files_to_update.foldl
        (fun tr f =>
          match fs.lookup f with
          | some m => tracked_insert tr f m
          | none => tr) t1.tracked_files
      (ps.1, { ps.2 with tracked_files := tracked })
    else
      let ps := take_snapshot t1 fs now false
      (ps.1, ps.2)
  (changes,
    { p2.2 with current_snapshot := p2.1.map (fun e => e.1),
                snapshot_cache := none })

theorem mem_sorted_insert {x y : String} {l : List String} :
    x ∈ sorted_insert y l → x = y ∨ x ∈ l := by
  induction l with
  | nil => intro h; simpa [sorted_insert] using h
  | cons z zs ih =>
    intro h
    simp only [sorted_insert] at h
    by_cases hc : chars_lt y.data z.data = true
    · rw [if_pos hc] at h
      rcases List.mem_cons.mp h with h1 | h1
      · exact Or.inl h1
      · exact Or.inr h1
    · rw [if_neg hc] at h
      rcases List.mem_cons.mp h with h1 | h1
      · exact Or.inr (h1 ▸ List.mem_cons_self z zs)
      · rcases ih h1 with h2 | h2
        · exact Or.inl h2
        · exact Or.inr (List.mem_cons_of_mem z h2)

theorem mem_py_sorted {x : String} : ∀ {l : List String},
    x ∈ py_sorted l → x ∈ l := by
  intro l
  induction l with
  | nil => intro h; simpa [py_sorted] using h
  | cons y ys ih =>
    intro h
    simp only [py_sorted, List.foldr_cons] at h
    rcases mem_sorted_insert h with h1 | h1
    · exact h1 ▸ List.mem_cons_self y ys
    · exact List.mem_cons_of_mem y (ih h1)

/-- Support lemma: a freshly computed diff can only report a path as
modified when that path was present in the tracking-start snapshot — a file
created after `start_tracking` can never move to `modified`. -/
theorem get_changes_compute_modified_subset_initial
    (t : FileTracker) (fs : List (String × Int)) (now : Int) :
    ∀ f ∈ (get_changes_compute t fs now).1.modified, f ∈ t.initial_snapshot := by
  intro f hf
  simp only [get_changes_compute] at hf
  have h1 := mem_py_sorted hf
  have h2 := List.mem_filter.mp h1
  have h3 := List.mem_filter.mp h2.1
  exact of_decide_eq_true h3.2

/-- Claim C9 scenario states. -/
def c9_after_start : FileTracker := start_tracking FileTracker.init [] 10

/-- First diff: one file created after tracking started. -/
def c9_first_diff : Changes × FileTracker :=
  get_changes c9_after_start [("f.txt", 100)] 20

/-- Baseline update after the file was rewritten (mtime 100 → 200). -/
def c9_after_update : FileTracker :=
  (update_snapshot c9_first_diff.2 [("f.txt", 200)] 30).2

/-- Final diff after touch + `update_baseline()`. -/
def c9_final_diff : Changes :=
  (get_changes c9_after_update [("f.txt", 200)] 40).1

/-- Claim C9 (code bug): the first diff reports the new file under
`created` only, as the claim says; but after rewriting the file and calling
`update_baseline()` then `diff()`, the file is *still* reported under
`created` and not under `modified` — `get_changes` always diffs against the
initial snapshot, which `update_snapshot` never advances, so a file absent
at tracking start can never be classified as modified (see
`get_changes_compute_modified_subset_initial`). -/
theorem file_tracker_touch_scenario :
    c9_first_diff.1 = { created := ["f.txt"], modified := [], deleted := [] } ∧
    c9_final_diff = { created := ["f.txt"], modified := [], deleted := [] } := by
  constructor <;> decide

/-! ## Phase execution with retries (`RalphLoopEngine._execute_phase`).

The four `_phase_*` bodies each call the generation collaborator and are
abstracted by an oracle giving, per retry attempt, either their returned
success dict, their returned failure dict, or an exception escaping into the
`try` of `_execute_phase`.  Timestamps, durations, history append and
logging do not affect the returned result and are elided.  The recursion on
`retry_count` is driven by a fuel of `max_retries - retry_count + 1`; a
recursive call only happens while `retry_count < max_retries`, so the
zero-fuel branch is unreachable. -/

/-- Outcome of one attempt of a phase implementation. -/
inductive PhaseAttempt where
  | ok (output : String)
  | fail (error : String)
  | exn (msg : String)

/-- The result dictionary shape of `_execute_phase`: `success` plus the
optional `output`/`error`/`warning`/`phase` keys. -/
structure PhaseResult where
  success : Bool
  output : Option String
  error : Option String
  warning : Option String
  phase : Option String
deriving DecidableEq

/-- The four phases `_execute_phase` dispatches to a `_phase_*` body. -/
def is_work_phase (p : Phase) : Bool :=
  p = Phase.study || p = Phase.implement || p = Phase.test || p = Phase.update

/-- Python `str(phase)` for the unknown-phase message. -/
def phase_py_str : Phase → String
  | .study => "Phase.STUDY"
  | .implement => "Phase.IMPLEMENT"
  | .test => "Phase.TEST"
  | .update => "Phase.UPDATE"
  | .idle => "Phase.IDLE"
  | .complete => "Phase.COMPLETE"
  | .error => "Phase.ERROR"

/-- The body of one `_execute_phase` invocation; `recurse` is the retrying
recursive call. -/
def execute_phase_step (impl : Nat → PhaseAttempt) (phase : Phase)
    (max_retries : Nat) (cnc : Bool) (recurse : Nat → PhaseResult)
    (retry_count : Nat) : PhaseResult :=
  let step : Sum PhaseResult String :=
    if is_work_phase phase then
      match impl retry_count with
      | .ok out =>
        Sum.inl
          { success := true, output := some out, error := none,
            warning := none, phase := some phase.value }
      | .fail err =>
        Sum.inl
          { success := false, output := none, error := some err,
            warning := none, phase := some phase.value }
      | .exn msg => Sum.inr msg
    else
      Sum.inl
        { success := false, output := none,
          error := some ("Unknown phase: " ++ phase_py_str phase),
          warning := none, phase := none }
  match step with
  | Sum.inl result =>
    if result.success = false ∧ retry_count < max_retries then
      if is_critical_error (result.error.getD "Unknown error") phase then result
      else recurse (retry_count + 1)
    else if result.success = false ∧ cnc = true ∧
        is_critical_error (result.error.getD "Unknown error") phase = false then
      { result with
        success := true,
        warning := some ("Phase completed with errors: "
          ++ result.error.getD "Unknown error") }
    else result
  | Sum.inr msg =>
    if retry_count < max_retries ∧ is_critical_error msg phase = false then
      recurse (retry_count + 1)
    else if cnc = true ∧ is_critical_error msg phase = false then
      { success := true, output := none, error := some msg,
        warning := some ("Phase completed with exception: " ++ msg),
        phase := some phase.value }
    else
      { success := false, output := none, error := some msg, warning := none,
        phase := some phase.value }

/-- Fueled worker for `_execute_phase`. -/
def execute_phase_go (impl : Nat → PhaseAttempt) (phase : Phase)
    (max_retries : Nat) (cnc : Bool) : Nat → Nat → PhaseResult
  | 0, _ =>
    { success := false, output := none, error := none, warning := none, phase := none }
  | fuel + 1, retry_count =>
    execute_phase_step impl phase max_retries cnc
      (execute_phase_go impl phase max_retries cnc fuel) retry_count

/-- `RalphLoopEngine._execute_phase` (result component). -/
def execute_phase (impl : Nat → PhaseAttempt) (phase : Phase)
    (max_retries : Nat) (cnc : Bool) (retry_count : Nat) : PhaseResult :=
  execute_phase_go impl phase max_retries cnc
    ((max_retries - retry_count) + 1) retry_count

theorem execute_phase_step_shape (impl : Nat → PhaseAttempt) (phase : Phase)
    (max_retries : Nat) (cnc : Bool) (h4 : is_work_phase phase = true)
    (recurse : Nat → PhaseResult) (rc : Nat)
    (hrec : rc < max_retries →
      (recurse (rc + 1)).phase = some phase.value ∧
      ((recurse (rc + 1)).output ≠ none ∨ (recurse (rc + 1)).error ≠ none)) :
    (execute_phase_step impl phase max_retries cnc recurse rc).phase
        = some phase.value ∧
    ((execute_phase_step impl phase max_retries cnc recurse rc).output ≠ none ∨
     (execute_phase_step impl phase max_retries cnc recurse rc).error ≠ none) := by
  unfold execute_phase_step
  simp only [h4, if_true]
  cases impl rc with
  | ok out => exact ⟨rfl, Or.inl (by simp)⟩
  | fail err =>
    simp only [eq_self_iff_true, true_and]
    by_cases hr : rc < max_retries
    · rw [if_pos hr]
      by_cases hc : is_critical_error ((some err).getD "Unknown error") phase = true
      · rw [if_pos hc]
        exact ⟨rfl, Or.inr (by simp)⟩
      · rw [if_neg hc]
        exact hrec hr
    · rw [if_neg hr]
      by_cases hc : (cnc = true ∧
          is_critical_error ((some err).getD "Unknown error") phase = false)
      · rw [if_pos hc]
        exact ⟨rfl, Or.inr (by simp)⟩
      · rw [if_neg hc]
        exact ⟨rfl, Or.inr (by simp)⟩
  | exn msg =>
    simp only
    by_cases hr : (rc < max_retries ∧ is_critical_error msg phase = false)
    · rw [if_pos hr]
      exact hrec hr.1
    · rw [if_neg hr]
      by_cases hc : (cnc = true ∧ is_critical_error msg phase = false)
      · rw [if_pos hc]
        exact ⟨rfl, Or.inr (by simp)⟩
      · rw [if_neg hc]
        exact ⟨rfl, Or.inr (by simp)⟩

theorem execute_phase_go_shape (impl : Nat → PhaseAttempt) (phase : Phase)
    (max_retries : Nat) (cnc : Bool) (h4 : is_work_phase phase = true) :
    ∀ (fuel retry_count : Nat), max_retries ≤ retry_count + fuel →
      (execute_phase_go impl phase max_retries cnc (fuel + 1) retry_count).phase
          = some phase.value ∧
      ((execute_phase_go impl phase max_retries cnc (fuel + 1) retry_count).output ≠ none ∨
       (execute_phase_go impl phase max_retries cnc (fuel + 1) retry_count).error ≠ none) := by
  intro fuel
  induction fuel with
  | zero =>
    intro rc hle
    exact execute_phase_step_shape impl phase max_retries cnc h4
      (execute_phase_go impl phase max_retries cnc 0) rc
      (fun hlt => absurd hlt (by omega))
  | succ fuel ih =>
    intro rc hle
    exact execute_phase_step_shape impl phase max_retries cnc h4
      (execute_phase_go impl phase max_retries cnc (fuel + 1)) rc
      (fun _ => ih (rc + 1) (by omega))

/-- Claim C2: for every behaviour of a phase body over the retry attempts —
including attempts that raise exceptions — and for every phase in
{study, implement, test, update}, `_execute_phase` returns (never throws) a
result dictionary carrying the phase name and an output or error field,
alongside its success flag.  Totality of `execute_phase` is the
no-exception-escapes property; the theorem pins the dictionary shape. -/
theorem execute_phase_total_result (impl : Nat → PhaseAttempt) (phase : Phase)
    (max_retries : Nat) (cnc : Bool) (retry_count : Nat)
    (h4 : is_work_phase phase = true) :
    (execute_phase impl phase max_retries cnc retry_count).phase
        = some phase.value ∧
    ((execute_phase impl phase max_retries cnc retry_count).output ≠ none ∨
     (execute_phase impl phase max_retries cnc retry_count).error ≠ none) :=
  execute_phase_go_shape impl phase max_retries cnc h4
    (max_retries - retry_count) retry_count (by omega)

/-- Claim C2 witness: a study phase whose body raises on every attempt. -/
theorem execute_phase_total_result_witness :
    (execute_phase (fun _ => PhaseAttempt.exn "boom") Phase.study 2 true 0).phase
        = some Phase.study.value ∧
    ((execute_phase (fun _ => PhaseAttempt.exn "boom") Phase.study 2 true 0).output ≠ none ∨
     (execute_phase (fun _ => PhaseAttempt.exn "boom") Phase.study 2 true 0).error ≠ none) :=
  execute_phase_total_result (fun _ => PhaseAttempt.exn "boom") Phase.study 2 true 0
    (by decide)

/-! ## Pause/resume control flow of `_run_loop` (per-task phase loop).

A small-step machine over the control state: `ready i` is the top of the
for-loop body for phase index `i` (the `should_stop` check and the
pre-phase `_wait_for_resume` of phase-by-phase mode), executing a phase and
the post-phase pause-set happen in one step (no blocking point lies between
them in the source), and `paused i` is a polling iteration inside the
post-phase `_wait_for_resume`.  `resume()` and `stop()` are the external
transitions on the shared flags. -/

/-- Program counter of the worker's phase loop. -/
inductive WorkerPC where
  | ready (i : Nat)
  | paused (i : Nat)
  | done
deriving DecidableEq

/-- Control state: shared flags, the observable `current_phase`, and the
log of executed phases. -/
structure C1State where
  mode : LoopMode
  is_paused : Bool
  should_stop : Bool
  current_phase : Phase
  executed : List Phase
  pc : WorkerPC
deriving DecidableEq

/-- `phases = [STUDY, IMPLEMENT, TEST, UPDATE]` of `_run_loop`. -/
def phase_order : List Phase :=
  [Phase.study, Phase.implement, Phase.test, Phase.update]

/-- The loop body for phase `ph` at index `i`: break on `should_stop`,
block in the pre-phase wait (phase-by-phase mode, non-STUDY phase, paused),
else execute the phase and, in phase-by-phase mode, set `is_paused` and
enter the post-phase wait. -/
def worker_ready_step (s : C1State) (i : Nat) (ph : Phase) : C1State :=
  if s.should_stop then { s with pc := .done }
  else if s.mode = LoopMode.phase_by_phase ∧ ph ≠ Phase.study ∧ s.is_paused = true then
    s
  else if s.mode = LoopMode.phase_by_phase then
    { s with
      current_phase := ph, executed := s.executed ++ [ph],
      is_paused := true, pc := .paused i }
  else
    { s with
      current_phase := ph, executed := s.executed ++ [ph],
      pc := .ready (i + 1) }

/-- One worker step at a given program counter. -/
def worker_step_at (s : C1State) : WorkerPC → C1State
  | .done => s
  | .ready i =>
    match phase_order.get? i with
    | none => { s with pc := .done }
    | some ph => worker_ready_step s i ph
  | .paused i =>
    if s.is_paused = true ∧ s.should_stop = false then s
    else { s with pc := .ready (i + 1) }

/-- One worker step. -/
def worker_step (s : C1State) : C1State := worker_step_at s s.pc

/-- `resume()`: clears `is_paused`. -/
def resume_event (s : C1State) : C1State := { s with is_paused := false }

/-- `stop()`: sets `should_stop` and clears `is_paused`. -/
def stop_event (s : C1State) : C1State :=
  { s with should_stop := true, is_paused := false }

/-- Worker state at the top of a task's phase loop. -/
def c1_init (m : LoopMode) : C1State :=
  { mode := m, is_paused := false, should_stop := false,
    current_phase := Phase.idle, executed := [], pc := .ready 0 }

theorem worker_step_ready (s : C1State) (i : Nat) (ph : Phase)
    (hpc : s.pc = .ready i) (hget : phase_order.get? i = some ph) :
    worker_step s = worker_ready_step s i ph := by
  unfold worker_step
  rw [hpc]
  simp only [worker_step_at]
  rw [hget]

theorem worker_step_paused (s : C1State) (i : Nat) (hpc : s.pc = .paused i) :
    worker_step s =
      if s.is_paused = true ∧ s.should_stop = false then s
      else { s with pc := .ready (i + 1) } := by
  unfold worker_step
  rw [hpc]
  rfl

theorem worker_step_non_stop_never_pauses (s : C1State)
    (h : s.mode = LoopMode.non_stop) :
    (worker_step s).is_paused = s.is_paused ∧ (worker_step s).mode = s.mode := by
  cases hpc : s.pc with
  | done =>
    have hw : worker_step s = s := by
      unfold worker_step
      rw [hpc]
      rfl
    rw [hw]
    exact ⟨rfl, rfl⟩
  | ready i =>
    cases hg : phase_order.get? i with
    | none =>
      have hw : worker_step s = { s with pc := .done } := by
        unfold worker_step
        rw [hpc]
        simp only [worker_step_at]
        rw [hg]
      rw [hw]
      exact ⟨rfl, rfl⟩
    | some ph =>
      rw [worker_step_ready s i ph hpc hg]
      unfold worker_ready_step
      by_cases h1 : s.should_stop = true
      · rw [if_pos h1]
        exact ⟨rfl, rfl⟩
      · rw [if_neg h1]
        rw [if_neg (fun hc => absurd (h ▸ hc.1) (by simp)),
          if_neg (by rw [h]; simp)]
        exact ⟨rfl, rfl⟩
  | paused i =>
    rw [worker_step_paused s i hpc]
    by_cases h1 : s.is_paused = true ∧ s.should_stop = false
    · rw [if_pos h1]
      exact ⟨rfl, rfl⟩
    · rw [if_neg h1]
      exact ⟨rfl, rfl⟩

theorem iterate_non_stop_never_paused :
    ∀ n : Nat, (worker_step^[n] (c1_init LoopMode.non_stop)).is_paused = false ∧
      (worker_step^[n] (c1_init LoopMode.non_stop)).mode = LoopMode.non_stop := by
  intro n
  induction n with
  | zero => exact ⟨rfl, rfl⟩
  | succ n ih =>
    rw [Function.iterate_succ_apply']
    have := worker_step_non_stop_never_pauses
      (worker_step^[n] (c1_init LoopMode.non_stop)) ih.2
    exact ⟨this.1.trans ih.1, this.2.trans ih.2⟩

/-- Claim C1: in phase-by-phase mode, completing any of the four phases sets
`is_paused` and enters the post-phase wait; a paused worker blocks (a worker
step is the identity) until `resume()` clears `is_paused` or `stop()` sets
`should_stop`, after which the wait exits to the next phase index;
concretely, after STUDY completes the status shows `is_paused = true` and
`current_phase = "study"`, and after `resume()` the worker executes
IMPLEMENT without re-running STUDY (and pauses again).  In non-stop mode
`is_paused` is never set at any step and the four phases run through. -/
theorem pause_semantics_phase_by_phase :
    (∀ (s : C1State) (i : Nat) (ph : Phase), s.mode = LoopMode.phase_by_phase →
      s.pc = .ready i → s.should_stop = false → phase_order.get? i = some ph →
      (ph = Phase.study ∨ s.is_paused = false) →
      (worker_step s).is_paused = true ∧
      (worker_step s).executed = s.executed ++ [ph] ∧
      (worker_step s).current_phase = ph ∧
      (worker_step s).pc = .paused i) ∧
    (∀ (s : C1State) (i : Nat), s.pc = .paused i → s.is_paused = true →
      s.should_stop = false → worker_step s = s) ∧
    (∀ (s : C1State) (i : Nat), s.pc = .paused i →
      (worker_step (resume_event s)).pc = .ready (i + 1) ∧
      (worker_step (stop_event s)).pc = .ready (i + 1)) ∧
    ((worker_step^[1] (c1_init LoopMode.phase_by_phase)).is_paused = true ∧
     (worker_step^[1] (c1_init LoopMode.phase_by_phase)).current_phase.value = "study" ∧
     (worker_step^[1] (c1_init LoopMode.phase_by_phase)).executed = [Phase.study]) ∧
    ((worker_step^[2] (resume_event
        (worker_step^[1] (c1_init LoopMode.phase_by_phase)))).executed
        = [Phase.study, Phase.implement] ∧
     (worker_step^[2] (resume_event
        (worker_step^[1] (c1_init LoopMode.phase_by_phase)))).current_phase
        = Phase.implement ∧
     (worker_step^[2] (resume_event
        (worker_step^[1] (c1_init LoopMode.phase_by_phase)))).is_paused = true) ∧
    (∀ n : Nat, (worker_step^[n] (c1_init LoopMode.non_stop)).is_paused = false) ∧
    (worker_step^[4] (c1_init LoopMode.non_stop)).executed = phase_order := by
  refine ⟨?_, ?_, ?_, by decide, by decide, ?_, by decide⟩
  · intro s i ph hm hpc hstop hget hok
    rw [worker_step_ready s i ph hpc hget]
    unfold worker_ready_step
    rw [if_neg (by rw [hstop]; simp)]
    have hnb : ¬(s.mode = LoopMode.phase_by_phase ∧ ph ≠ Phase.study ∧
        s.is_paused = true) := by
      intro hc
      rcases hok with hstudy | hnp
      · exact hc.2.1 hstudy
      · rw [hnp] at hc
        exact absurd hc.2.2 (by simp)
    rw [if_neg hnb, if_pos hm]
    exact ⟨rfl, rfl, rfl, rfl⟩
  · intro s i hpc hp hstop
    rw [worker_step_paused s i hpc, if_pos ⟨hp, hstop⟩]
  · intro s i hpc
    constructor
    · rw [worker_step_paused (resume_event s) i hpc,
        if_neg (by simp [resume_event])]
    · rw [worker_step_paused (stop_event s) i hpc,
        if_neg (by simp [stop_event])]
  · exact fun n => (iterate_non_stop_never_paused n).1

/-- Claim C1 witness: the blocking conjunct applied at the concrete paused
state reached after STUDY. -/
theorem pause_semantics_phase_by_phase_witness :
    worker_step (worker_step^[1] (c1_init LoopMode.phase_by_phase))
      = worker_step^[1] (c1_init LoopMode.phase_by_phase) :=
  pause_semantics_phase_by_phase.2.1
    (worker_step^[1] (c1_init LoopMode.phase_by_phase)) 0
    (by decide) (by decide) (by decide)

/-! ## `RalphLoopEngine.start` (claim C10). -/

/-- The control fields `start` touches, plus a worker-thread generation
counter (a new thread object is created on each successful `start`). -/
structure EngineControl where
  mode : LoopMode
  current_phase : Phase
  is_running : Bool
  is_paused : Bool
  should_stop : Bool
  thread_generation : Nat
deriving DecidableEq

/-- `start(mode)`: raises `RuntimeError("Loop is already running")` before
touching anything when `is_running`; otherwise resets the control flags and
starts a fresh worker thread.  The returned pair is (state after the call,
raised exception message if any). -/
def engine_start (st : EngineControl) (mode : LoopMode) :
    EngineControl × Option String :=
  if st.is_running then (st, some "Loop is already running")
  else
    ({ st with
        mode := mode, is_running := true, is_paused := false,
        should_stop := false, current_phase := Phase.idle,
        thread_generation := st.thread_generation + 1 }, none)

/-- Claim C10: calling `start` while `is_running` raises `RuntimeError` and
leaves the whole control state — mode, current_phase, is_paused,
should_stop, and the existing worker thread — exactly as it was. -/
theorem engine_start_already_running (st : EngineControl) (mode : LoopMode)
    (h : st.is_running = true) :
    engine_start st mode = (st, some "Loop is already running") := by
  unfold engine_start
  rw [if_pos h]

/-- Claim C10 witness: a concrete running engine. -/
theorem engine_start_already_running_witness :
    engine_start
      { mode := LoopMode.phase_by_phase, current_phase := Phase.study,
        is_running := true, is_paused := true, should_stop := false,
        thread_generation := 1 } LoopMode.non_stop
      = ({ mode := LoopMode.phase_by_phase, current_phase := Phase.study,
           is_running := true, is_paused := true, should_stop := false,
           thread_generation := 1 }, some "Loop is already running") :=
  engine_start_already_running _ LoopMode.non_stop rfl

end Ralph
